import Mathlib

/-!
Verification of the Dhanista support-chat backend (`backend/routes/chat.js`).

Text is modelled at the character level: a JS string is a `List Char`.
The FAQ relevance scorer, history trimming, prompt assembly, reply
extraction and the persistence step of the chat route are embedded as
executable Lean functions, translated statement by statement from the
JavaScript source.
-/

/-- A JS string, modelled as its character sequence. -/
abbrev Str : Type := List Char

/-- An FAQ record as stored by the `FAQ` mongoose model: a title and a
content string (the `createdAt` timestamp plays no role in the routes). -/
structure Faq where
  title : Str
  content : Str
deriving DecidableEq, Repr

/-- Characters matched by `\s` in a JS regex (the ASCII ones plus NBSP;
the exotic Unicode space code points do not occur in any claim). -/
def jsSpace (c : Char) : Bool :=
  c == ' ' || c == '\t' || c == '\n' || c == '\r' || c == '\x0b' || c == '\x0c' || c == ' '

/-- Characters kept by `replace(/[^a-z0-9\s]/g, '')` (applied after
`toLowerCase()`). -/
def keepChar (c : Char) : Bool :=
  (decide ('a' ≤ c) && decide (c ≤ 'z')) || (decide ('0' ≤ c) && decide (c ≤ '9')) || jsSpace c

/-- `String.prototype.trim()`: strip leading and trailing whitespace. -/
def trimJs (s : Str) : Str :=
  ((s.dropWhile jsSpace).reverse.dropWhile jsSpace).reverse

/-- `String.prototype.toLowerCase()`, per character. -/
def lowerStr (s : Str) : Str := s.map Char.toLower

/-- `normalizeText` from chat.js:
`text.toLowerCase().replace(/[^a-z0-9\s]/g, '').trim()`. -/
def normalizeText (text : Str) : Str :=
  trimJs ((lowerStr text).filter keepChar)

/-- Does `needle` occur at the start of the second argument?  Auxiliary
for `strIncludes`. -/
def prefixed : Str → Str → Bool
  | [], _ => true
  | _ :: _, [] => false
  | a :: as, b :: bs => a == b && prefixed as bs

/-- `hay.includes(needle)` on JS strings: `needle` occurs contiguously
somewhere in `hay` (the empty string occurs in every string). -/
def strIncludes (hay needle : Str) : Bool :=
  match hay with
  | [] => needle.isEmpty
  | _ :: t => prefixed needle hay || strIncludes t needle

/-- Splits a string into its maximal nonempty runs of non-whitespace
characters.  `s.split(/\s+/)` yields exactly these runs, plus possibly
empty fragments at the ends, which the subsequent `length > 2` filter
removes; after that filter the two agree on every input. -/
def wordsAux : Str → Str → List Str
  | [], acc => if acc.isEmpty then [] else [acc.reverse]
  | c :: rest, acc =>
    if jsSpace c then
      if acc.isEmpty then wordsAux rest [] else acc.reverse :: wordsAux rest []
    else wordsAux rest (c :: acc)

/-- The word list of `s.split(/\s+/)`, up to empty fragments. -/
def wordsOf (s : Str) : List Str := wordsAux s []

/-- `normalizedQuery.split(/\s+/).filter(word => word.length > 2)`. -/
def queryWordsOf (q : Str) : List Str :=
  (wordsOf (normalizeText q)).filter (fun w => decide (2 < w.length))

/-- The per-entry score computation of `findRelevantFaqs`.  Each JS
statement `if (cond) score += k` contributes `k` exactly when `cond`
holds, so the sequential accumulation is written as the fold (for the
word loop) followed by the four guarded addends, in source order. -/
def scoreOf (query : Str) (queryWords : List Str) (normalizedQuery : Str) (faq : Faq) : Nat :=
  let normalizedTitle := normalizeText faq.title
  let normalizedContent := normalizeText faq.content
  (queryWords.foldl (fun score word =>
      if strIncludes normalizedTitle word then score + 2
      else if strIncludes normalizedContent word then score + 1
      else score) 0)
  + (if strIncludes normalizedTitle normalizedQuery && decide (5 < normalizedQuery.length) then 5 else 0)
  + (if strIncludes normalizedContent normalizedQuery && decide (5 < normalizedQuery.length) then 2 else 0)
  + (if strIncludes (lowerStr faq.title) (lowerStr query) then 3 else 0)
  + (if strIncludes (lowerStr faq.content) (lowerStr query) then 1 else 0)

/-- The score `findRelevantFaqs` assigns to one FAQ entry for a query. -/
def faqScore (query : Str) (faq : Faq) : Nat :=
  scoreOf query (queryWordsOf query) (normalizeText query) faq

/-- One insertion step of a stable descending sort: walk past entries
with strictly greater score, so that among equal scores earlier entries
stay first.  This is the behaviour of the (stable, per ES2019)
`Array.prototype.sort((a, b) => b.score - a.score)`. -/
def insertDesc (x : Faq × Nat) : List (Faq × Nat) → List (Faq × Nat)
  | [] => [x]
  | y :: ys => if decide (x.2 < y.2) then y :: insertDesc x ys else x :: y :: ys

/-- Stable sort by non-increasing score. -/
def sortDesc : List (Faq × Nat) → List (Faq × Nat)
  | [] => []
  | x :: xs => insertDesc x (sortDesc xs)

/-- `findRelevantFaqs(query, faqs, minScore = 0.3)` from chat.js: score
every entry, keep those with `score >= minScore`, sort stably by
descending score, and return the first three (`slice(0, 3)`). -/
def findRelevantFaqs (query : Str) (faqs : List Faq) (minScore : ℚ := 3/10) : List Faq :=
  let normalizedQuery := normalizeText query
  let qWords := (wordsOf normalizedQuery).filter (fun w => decide (2 < w.length))
  let scoredFaqs := faqs.map (fun faq => (faq, scoreOf query qWords normalizedQuery faq))
  let relevantFaqs :=
    (sortDesc (scoredFaqs.filter (fun item => decide (minScore ≤ (item.2 : ℚ))))).map Prod.fst
  relevantFaqs.take 3

/-- Spec-side restatement of the four substring components of the score
(spec §4.1 step 3): +5/+2 for the normalized query (when longer than 5)
inside normalized title/content, +3/+1 for the raw lowercased query
inside raw lowercased title/content. -/
def substrScore (query : Str) (faq : Faq) : Nat :=
  (if strIncludes (normalizeText faq.title) (normalizeText query)
      && decide (5 < (normalizeText query).length) then 5 else 0)
  + (if strIncludes (normalizeText faq.content) (normalizeText query)
      && decide (5 < (normalizeText query).length) then 2 else 0)
  + (if strIncludes (lowerStr faq.title) (lowerStr query) then 3 else 0)
  + (if strIncludes (lowerStr faq.content) (lowerStr query) then 1 else 0)

/-! ## Conversation history and prompt assembly -/

/-- A message sender tag, the `sender` string of the `Chat` model
(`"user"`, `"ai"`, or anything else the schema would admit). -/
inductive Sender where
  | user
  | ai
  | other
deriving DecidableEq, Repr

/-- A stored conversation turn (the `timestamp` field plays no role in
the chat route). -/
structure Msg where
  sender : Sender
  content : Str
deriving DecidableEq, Repr

/-- `l.slice(-n)` on a JS array: the last `n` elements, or the whole
array when it is shorter than `n`. -/
def lastN (n : Nat) (l : List α) : List α := l.drop (l.length - n)

/-- `['user', 'ai'].includes(m.sender)`. -/
def keptSender (m : Msg) : Bool :=
  decide (m.sender = Sender.user) || decide (m.sender = Sender.ai)

/-- The history-trimming step of the chat route: filter to user/ai
turns; if there is a most recent turn and it is from the user keep the
last 6, otherwise keep the last 5.  (`cur.getLast?` is
`cur.length > 0 && cur[cur.length - 1]`.) -/
def trimHistory (msgs : List Msg) : List Msg :=
  let cur := msgs.filter keptSender
  match cur.getLast? with
  | some m => if m.sender = Sender.user then lastN 6 cur else lastN 5 cur
  | none => lastN 5 cur

/-- A role tag in the outbound Gemini payload. -/
inductive Role where
  | user
  | model
deriving DecidableEq, Repr

/-- One element of the payload `contents` array; `parts` is the list of
`text` fields (`[{ text: ... }]` in the source). -/
structure GeminiMsg where
  role : Role
  parts : List Str
deriving DecidableEq, Repr

/-- `{ role: msg.sender === 'user' ? 'user' : 'model', parts: [{ text: msg.content }] }`. -/
def toGeminiMsg (m : Msg) : GeminiMsg :=
  { role := if m.sender = Sender.user then Role.user else Role.model
    parts := [m.content] }

/-- `` `Q: ${faq.title}\nA: ${faq.content}` ``. -/
def fmtFaq (f : Faq) : Str := "Q: ".data ++ f.title ++ "\nA: ".data ++ f.content

/-- The separator of `join("\n\n---\n\n")`. -/
def faqSep : Str := "\n\n---\n\n".data

/-- `faqContextForGemini`: the formatted FAQ block, or the empty string
when no FAQ matched. -/
def faqContext (relevantFaqs : List Faq) : Str :=
  if relevantFaqs.length > 0 then List.intercalate faqSep (relevantFaqs.map fmtFaq) else []

/-- The fixed instruction text preceding the optional FAQ block in
`systemInstruction` (transcribed from the template literal in chat.js;
its exact wording is not load-bearing for any claim). -/
def instrPrefix : Str :=
  ("You are Dhanista, a helpful and knowledgeable AI assistant. Your primary goal is to answer user questions accurately and comprehensively.\n\n        **Instructions:**\n        1.  **Prioritize the provided relevant FAQs.** If the user's question can be answered by the information in \"Relevant FAQs:\", use that information directly and comprehensively.\n        2.  If the \"Relevant FAQs:\" section is empty or does not sufficiently answer the question, attempt to answer using your general knowledge.\n        3.  **Crucially:** If you cannot find relevant information in the FAQs AND your general knowledge is insufficient, *do not say you don't have enough information*. Instead, acknowledge the query and politely suggest rephrasing or mention that the specific information might not be available in your current knowledge base. For example: \"I don't have specific information on that topic in my current knowledge base. Could you please rephrase your question or ask about something else?\" or \"The information you're looking for might not be in my FAQs. Can I help with anything else?\"\n        4.  Maintain a friendly and professional tone.\n\n        ").data

/-- The header introducing the FAQ block. -/
def faqHeader : Str := "**Relevant FAQs:**\n".data

/-- `systemInstruction`: the fixed prefix followed by
`` ${faqContextForGemini ? `**Relevant FAQs:**\n${faqContextForGemini}\n\n` : ''} ``. -/
def systemInstruction (relevantFaqs : List Faq) : Str :=
  let ctx := faqContext relevantFaqs
  instrPrefix ++ (if !ctx.isEmpty then faqHeader ++ ctx ++ "\n\n".data else [])

/-- The `contents` array of the payload sent to the Gemini API: the
system instruction as a first user-role message, then the mapped
trimmed history, then the current message as a final user-role
message. -/
def payloadContents (message : Str) (relevantFaqs : List Faq) (chatHistory : List Msg) : List GeminiMsg :=
  { role := Role.user, parts := [systemInstruction relevantFaqs] }
    :: (chatHistory.map toGeminiMsg ++ [{ role := Role.user, parts := [message] }])

/-! ## Reply extraction

The upstream response body is an arbitrary JSON value.  `extractReply`
follows the guard chain

`response.data && response.data.candidates && response.data.candidates.length > 0
  && response.data.candidates[0].content && response.data.candidates[0].content.parts
  && response.data.candidates[0].content.parts.length > 0`

and then evaluates `response.data.candidates[0].content.parts[0].text`.
Property access on `undefined`/`null` throws a `TypeError`, modelled as
`Except.error ()`; in the route this is caught by the surrounding
`try/catch`.  The initial default of `reply` is dead: both branches of
the `if` overwrite it, so extraction yields either the "empty or
unclear" fallback or the raw `text` field. -/

/-- A JSON value (the shape of a parsed HTTP response body). -/
inductive JVal where
  | null : JVal
  | bool : Bool → JVal
  | num : Int → JVal
  | str : Str → JVal
  | arr : List JVal → JVal
  | obj : List (Str × JVal) → JVal

/-- JS truthiness of a defined value. -/
def truthy : JVal → Bool
  | .null => false
  | .bool b => b
  | .num n => decide (n ≠ 0)
  | .str s => !s.isEmpty
  | .arr _ => true
  | .obj _ => true

/-- First-match field lookup in an object literal. -/
def lookupField : List (Str × JVal) → Str → Option JVal
  | [], _ => none
  | (k2, v) :: rest, k => if k2 == k then some v else lookupField rest k

/-- Property access `v[k]` on a defined, non-null value (`none` is JS
`undefined`).  Strings and arrays expose `length`; other primitives
have no own properties that the route reads. -/
def pget : JVal → Str → Option JVal
  | .obj fs, k => lookupField fs k
  | .arr xs, k => if k == "length".data then some (.num (Int.ofNat xs.length)) else none
  | .str s, k => if k == "length".data then some (.num (Int.ofNat s.length)) else none
  | _, _ => none

/-- Index access `v[i]` on a defined, non-null value: array element,
string character, or the object property named by the decimal digits
of `i`. -/
def pidx : JVal → Nat → Option JVal
  | .arr xs, i => xs.get? i
  | .str s, i => (s.get? i).map (fun c => .str [c])
  | .obj fs, i => lookupField fs (Nat.repr i).data
  | _, _ => none

/-- Digit-string to number, for the `ToNumber` coercion below. -/
def digitsToNat (s : Str) : Nat :=
  s.foldl (fun n c => 10 * n + (c.toNat - 48)) 0

/-- The comparison `x > 0` of the guard chain.  Numbers compare
directly; `true > 0` holds in JS; a plain digit string coerces to its
numeric value.  (Remaining exotic `ToNumber` coercions, such as
single-element arrays, are approximated as false; no claim exercises
them.) -/
def gtZero : Option JVal → Bool
  | some (.num n) => decide (0 < n)
  | some (.bool b) => b
  | some (.str s) => !s.isEmpty && s.all Char.isDigit && decide (0 < digitsToNat s)
  | _ => false

/-- Is a defined value `null`? -/
def isNullV : JVal → Bool
  | .null => true
  | _ => false

/-- The fallback reply used when the guard chain rejects the response. -/
def fallbackReply : Str :=
  "I received an empty or unclear response from the AI. Please try again or ask your question in a different way.".data

/-- The initial default assigned to `reply`; dead code, since both
branches of the `if` overwrite it before use. -/
def initialReply : Str :=
  "I'm sorry, I couldn't process your request at this moment. Please try again or rephrase your question.".data

/-- Reply extraction over `response.data` (`none` = body absent).
Follows the guard chain conjunct by conjunct; any property access on
`undefined` or `null` along the chain is `Except.error ()`. -/
def extractReply (dat : Option JVal) : Except Unit (Option JVal) :=
  match dat with
  | none => Except.ok (some (JVal.str fallbackReply))
  | some v =>
    if truthy v then
      match pget v "candidates".data with
      | some cv =>
        if truthy cv then
          if gtZero (pget cv "length".data) then
            match pidx cv 0 with
            | some c0 =>
              if isNullV c0 then Except.error ()
              else
                match pget c0 "content".data with
                | some ct =>
                  if truthy ct then
                    match pget ct "parts".data with
                    | some ps =>
                      if truthy ps then
                        if gtZero (pget ps "length".data) then
                          match pidx ps 0 with
                          | some p0 =>
                            if isNullV p0 then Except.error ()
                            else Except.ok (pget p0 "text".data)
                          | none => Except.error ()
                        else Except.ok (some (JVal.str fallbackReply))
                      else Except.ok (some (JVal.str fallbackReply))
                    | none => Except.ok (some (JVal.str fallbackReply))
                  else Except.ok (some (JVal.str fallbackReply))
                | none => Except.ok (some (JVal.str fallbackReply))
            | none => Except.error ()
          else Except.ok (some (JVal.str fallbackReply))
        else Except.ok (some (JVal.str fallbackReply))
      | none => Except.ok (some (JVal.str fallbackReply))
    else Except.ok (some (JVal.str fallbackReply))

/-- Safe (none-propagating) property navigation, used only to state
where the extracted text lives. -/
def sget (o : Option JVal) (k : Str) : Option JVal :=
  o.bind (fun v => pget v k)

/-- Safe (none-propagating) index navigation. -/
def sidx (o : Option JVal) (i : Nat) : Option JVal :=
  o.bind (fun v => pidx v i)

/-- `data.candidates[0].content.parts[0]`, navigated safely. -/
def firstPart (dat : Option JVal) : Option JVal :=
  sidx (sget (sget (sidx (sget dat "candidates".data) 0) "content".data) "parts".data) 0

/-- Truthiness of a possibly-undefined value (`undefined` is falsy). -/
def truthyO : Option JVal → Bool
  | none => false
  | some v => truthy v

/-- Is a value `undefined` or `null` — the two cases whose property
access throws a `TypeError`? -/
def isNully : Option JVal → Bool
  | none => true
  | some JVal.null => true
  | some _ => false

/-- Spec-side restatement of the extraction contract, with every path
renavigated safely from the response root: the fixed fallback string
whenever any guard of the chain is falsy (in chain order), a thrown
`TypeError` when the indexed candidate or part about to be dereferenced
is `undefined` or `null`, and otherwise the raw `text` field of the
first candidate's first part. -/
def extractSpec (dat : Option JVal) : Except Unit (Option JVal) :=
  if truthyO dat = false then
    Except.ok (some (JVal.str fallbackReply))
  else if truthyO (sget dat "candidates".data) = false then
    Except.ok (some (JVal.str fallbackReply))
  else if gtZero (sget (sget dat "candidates".data) "length".data) = false then
    Except.ok (some (JVal.str fallbackReply))
  else if isNully (sidx (sget dat "candidates".data) 0) then
    Except.error ()
  else if truthyO (sget (sidx (sget dat "candidates".data) 0) "content".data) = false then
    Except.ok (some (JVal.str fallbackReply))
  else if truthyO (sget (sget (sidx (sget dat "candidates".data) 0) "content".data)
      "parts".data) = false then
    Except.ok (some (JVal.str fallbackReply))
  else if gtZero (sget (sget (sget (sidx (sget dat "candidates".data) 0) "content".data)
      "parts".data) "length".data) = false then
    Except.ok (some (JVal.str fallbackReply))
  else if isNully (firstPart dat) then
    Except.error ()
  else
    Except.ok (sget (firstPart dat) "text".data)

/-! ## Persistence and file upload -/

/-- The persistence step of a successful exchange: fetch the user's
record (`none` when `Chat.findOne` found nothing, in which case a fresh
record with empty `messages` is created), then push the user turn and
the ai turn. -/
def savedMessages (prev : Option (List Msg)) (message reply : Str) : List Msg :=
  let msgs := match prev with | none => [] | some l => l
  msgs ++ [{ sender := Sender.user, content := message }, { sender := Sender.ai, content := reply }]

/-- An uploaded file as multer's memory storage presents it.  The
`buffer` holds the file's bytes; for the claims below it is modelled at
the character level, with `buffer.toString('utf8')` the identity on a
buffer that holds UTF-8 text. -/
structure UploadedFile where
  originalname : Str
  mimetype : Str
  buffer : Str
  size : Nat
deriving DecidableEq, Repr

/-- The content-extraction step of `POST /upload-file-faq`.  `pdfParse`
abstracts the external `pdf-parse` library (success yields the text,
failure the error message). -/
def extractedContent (pdfParse : Str → Except Str Str) (f : UploadedFile) : Str :=
  if f.mimetype == "application/pdf".data then
    match pdfParse f.buffer with
    | Except.ok t => t
    | Except.error e => "[Failed to extract text from PDF: ".data ++ e ++ "]".data
  else if prefixed "text/".data f.mimetype then
    f.buffer
  else
    "[File uploaded: ".data ++ f.originalname ++ ", Type: ".data ++ f.mimetype
      ++ ", Size: ".data ++ (Nat.repr f.size).data ++ " bytes]".data

/-- The FAQ record saved by `POST /upload-file-faq`. -/
def fileFaq (pdfParse : Str → Except Str Str) (title : Str) (f : UploadedFile) : Faq :=
  { title := title, content := extractedContent pdfParse f }

/-! ## Concrete values used by counterexamples and witnesses -/

/-- The FAQ entry of the spec's refund example. -/
def refundFaq : Faq := ⟨"Refund Policy".data, "We refund within 30 days".data⟩

/-- The query of the spec's refund example. -/
def refundQuery : Str := "what is your refund policy".data

/-- The query of the top-3 counterexample. -/
def polQuery : Str := "policy".data

/-- Four FAQ entries that all score well for the query `"policy"`. -/
def polFaq1 : Faq := ⟨"a policy".data, "x".data⟩

def polFaq2 : Faq := ⟨"b policy".data, "x".data⟩

def polFaq3 : Faq := ⟨"c policy".data, "x".data⟩

def polFaq4 : Faq := ⟨"d policy".data, "x".data⟩

/-- A response whose `candidates` is a non-array object with a positive
`length` field: every guard passes but `candidates[0]` is `undefined`,
so `.content` throws. -/
def malformedA : Option JVal :=
  some (JVal.obj [("candidates".data, JVal.obj [("length".data, JVal.num 1)])])

/-- A well-shaped response whose first part lacks a `text` field, so the
extracted reply is `undefined`, not a string. -/
def malformedB : Option JVal :=
  some (JVal.obj [("candidates".data,
    JVal.arr [JVal.obj [("content".data, JVal.obj [("parts".data, JVal.arr [JVal.obj []])])]])])

/-- Seven alternating stored turns ending in a user turn. -/
def alt7 : List Msg :=
  [⟨Sender.user, "m1".data⟩, ⟨Sender.ai, "r1".data⟩, ⟨Sender.user, "m2".data⟩,
   ⟨Sender.ai, "r2".data⟩, ⟨Sender.user, "m3".data⟩, ⟨Sender.ai, "r3".data⟩,
   ⟨Sender.user, "m4".data⟩]

/-- Six alternating stored turns ending in an assistant turn. -/
def alt6 : List Msg :=
  [⟨Sender.user, "m1".data⟩, ⟨Sender.ai, "r1".data⟩, ⟨Sender.user, "m2".data⟩,
   ⟨Sender.ai, "r2".data⟩, ⟨Sender.user, "m3".data⟩, ⟨Sender.ai, "r3".data⟩]

/-- A one-entry FAQ corpus. -/
def faqA : Faq := ⟨"a".data, "b".data⟩

/-- A concrete matched FAQ for the payload witness. -/
def faqT : Faq := ⟨"t".data, "c".data⟩

/-- A one-turn history for the payload witness. -/
def histU : List Msg := [⟨Sender.user, "hi".data⟩]

/-- A plain-text upload holding "Hello world". -/
def helloFile : UploadedFile := ⟨"hello.txt".data, "text/plain".data, "Hello world".data, 11⟩

/-- A PDF-parser oracle that is never consulted for text uploads. -/
def noPdf : Str → Except Str Str := fun _ => Except.error "unused".data

/-! ## Helper lemmas -/

/-- The integer scores compare against the 0.3 threshold exactly when
they are at least 1. -/
theorem minScore_iff (s : Nat) : ((3/10 : ℚ) ≤ (s : ℚ)) ↔ 1 ≤ s := by
  cases s with
  | zero => simp
  | succ n =>
    have h1 : (1 : ℚ) ≤ (n + 1 : ℚ) := by
      have : (0 : ℚ) ≤ (n : ℚ) := by positivity
      linarith
    constructor
    · intro _
      exact Nat.succ_le_succ (Nat.zero_le n)
    · intro _
      push_cast
      linarith

/-- Rewrites the rational threshold filter of `findRelevantFaqs` into a
natural-number comparison, so that concrete runs evaluate by `decide`. -/
theorem findRelevantFaqs_eval (query : Str) (faqs : List Faq) :
    findRelevantFaqs query faqs
      = ((sortDesc ((faqs.map (fun f => (f, faqScore query f))).filter
          (fun item => decide (1 ≤ item.2)))).map Prod.fst).take 3 := by
  have hfil : ∀ l : List (Faq × Nat),
      l.filter (fun item => decide ((3/10 : ℚ) ≤ (item.2 : ℚ)))
        = l.filter (fun item => decide (1 ≤ item.2)) := by
    intro l
    apply List.filter_congr
    intro x _
    rw [decide_eq_decide]
    exact minScore_iff x.2
  simp only [findRelevantFaqs]
  rw [hfil]
  rfl

/-- The word loop of the scorer accumulates two points per word in the
title and one per remaining word in the content. -/
theorem foldl_wordScore (nt nc : Str) (ws : List Str) (acc : Nat) :
    ws.foldl (fun score word =>
        if strIncludes nt word then score + 2
        else if strIncludes nc word then score + 1
        else score) acc
      = acc + (2 * ws.countP (fun w => strIncludes nt w)
          + ws.countP (fun w => !(strIncludes nt w) && strIncludes nc w)) := by
  induction ws generalizing acc with
  | nil => simp
  | cons w ws ih =>
    rw [List.foldl_cons, List.countP_cons, List.countP_cons, ih]
    cases h1 : strIncludes nt w with
    | true => simp [h1]; ring
    | false =>
      cases h2 : strIncludes nc w with
      | true => simp [h1, h2]; ring
      | false => simp [h1, h2]

/-- Membership in an insertion step. -/
theorem mem_insertDesc {x z : Faq × Nat} {l : List (Faq × Nat)}
    (h : z ∈ insertDesc x l) : z = x ∨ z ∈ l := by
  induction l with
  | nil =>
    simp [insertDesc] at h
    exact Or.inl h
  | cons y ys ih =>
    simp only [insertDesc] at h
    split at h
    · rcases List.mem_cons.mp h with rfl | hz
      · exact Or.inr (List.mem_cons_self _ _)
      · rcases ih hz with rfl | hz2
        · exact Or.inl rfl
        · exact Or.inr (List.mem_cons_of_mem _ hz2)
    · rcases List.mem_cons.mp h with rfl | hz
      · exact Or.inl rfl
      · exact Or.inr hz

/-- Insertion preserves the non-increasing-score invariant. -/
theorem pairwise_insertDesc (x : Faq × Nat) (l : List (Faq × Nat))
    (h : l.Pairwise (fun a b => b.2 ≤ a.2)) :
    (insertDesc x l).Pairwise (fun a b => b.2 ≤ a.2) := by
  induction l with
  | nil => simp [insertDesc]
  | cons y ys ih =>
    rw [List.pairwise_cons] at h
    simp only [insertDesc]
    split
    · rename_i hxy
      rw [List.pairwise_cons]
      refine ⟨?_, ih h.2⟩
      intro z hz
      rcases mem_insertDesc hz with rfl | hz2
      · exact Nat.le_of_lt (of_decide_eq_true hxy)
      · exact h.1 z hz2
    · rename_i hxy
      have hyx : y.2 ≤ x.2 := Nat.not_lt.mp (fun hlt => hxy (decide_eq_true hlt))
      rw [List.pairwise_cons]
      refine ⟨?_, List.pairwise_cons.mpr ⟨h.1, h.2⟩⟩
      intro z hz
      rcases List.mem_cons.mp hz with rfl | hz2
      · exact hyx
      · exact Nat.le_trans (h.1 z hz2) hyx

/-- The stable sort produces a non-increasing score sequence. -/
theorem sortDesc_pairwise (l : List (Faq × Nat)) :
    (sortDesc l).Pairwise (fun a b => b.2 ≤ a.2) := by
  induction l with
  | nil => simp [sortDesc]
  | cons x xs ih => exact pairwise_insertDesc x _ ih

/-- Restricting an insertion step to one score class: the inserted
element lands in front of its own class and the others are untouched. -/
theorem filter_insertDesc (x : Faq × Nat) (l : List (Faq × Nat)) (s : Nat) :
    (insertDesc x l).filter (fun z => z.2 == s)
      = if x.2 == s then x :: l.filter (fun z => z.2 == s)
        else l.filter (fun z => z.2 == s) := by
  induction l with
  | nil =>
    cases hx : x.2 == s <;> simp [insertDesc, List.filter, hx]
  | cons y ys ih =>
    simp only [insertDesc]
    split
    · rename_i hlt
      have hlt2 : x.2 < y.2 := of_decide_eq_true hlt
      rw [List.filter_cons, ih]
      cases hx : x.2 == s with
      | true =>
        have hxs : x.2 = s := by simpa using hx
        have hy : (y.2 == s) = false := by
          simp only [beq_eq_false_iff_ne]
          omega
        simp [hy, List.filter_cons]
      | false => cases hy : y.2 == s <;> simp [hx, hy, List.filter_cons]
    · cases hx : x.2 == s <;> simp [List.filter_cons, hx]

/-- Stability: the stable sort leaves each score class in its original
relative order. -/
theorem sortDesc_filter (l : List (Faq × Nat)) (s : Nat) :
    (sortDesc l).filter (fun z => z.2 == s) = l.filter (fun z => z.2 == s) := by
  induction l with
  | nil => rfl
  | cons x xs ih =>
    simp only [sortDesc]
    rw [filter_insertDesc, ih, List.filter_cons]

/-- Inserting below a head of equal or smaller score is a no-op cons. -/
theorem insertDesc_head (x y : Faq × Nat) (ys : List (Faq × Nat)) (h : ¬ x.2 < y.2) :
    insertDesc x (y :: ys) = x :: y :: ys := by
  simp [insertDesc, h]

/-- A constant-score list is left untouched by the stable sort. -/
theorem sortDesc_const (l : List (Faq × Nat)) (c : Nat) (h : ∀ p ∈ l, p.2 = c) :
    sortDesc l = l := by
  induction l with
  | nil => rfl
  | cons x xs ih =>
    have hx : x.2 = c := h x (List.mem_cons_self _ _)
    have hxs : ∀ p ∈ xs, p.2 = c := fun p hp => h p (List.mem_cons_of_mem _ hp)
    simp only [sortDesc]
    rw [ih hxs]
    cases xs with
    | nil => rfl
    | cons y ys =>
      have hy : y.2 = c := hxs y (List.mem_cons_self _ _)
      exact insertDesc_head x y ys (by omega)

/-- The empty string occurs in every string. -/
theorem strIncludes_nil (hay : Str) : strIncludes hay [] = true := by
  cases hay <;> simp [strIncludes, prefixed]

/-- Every FAQ entry scores exactly 4 for the empty query: the raw
substring checks contribute 3 + 1 and nothing else fires. -/
theorem faqScore_nil (f : Faq) : faqScore [] f = 4 := by
  have hw : queryWordsOf ([] : Str) = [] := rfl
  have hnq : normalizeText ([] : Str) = [] := rfl
  simp [faqScore, scoreOf, hw, hnq, lowerStr, strIncludes_nil]

/-! ## Claims about the relevance scorer -/

/-- C1 (counterexample): for the query "policy" against four entries
that each score 10 ≥ 0.3, the scorer returns only 3 entries, so the
fourth qualifying entry is not returned — the result is not "exactly
those whose score is at least the threshold". -/
theorem claim1_counterexample :
    (3/10 : ℚ) ≤ (faqScore polQuery polFaq4 : ℚ)
    ∧ polFaq4 ∉ findRelevantFaqs polQuery [polFaq1, polFaq2, polFaq3, polFaq4]
    ∧ (findRelevantFaqs polQuery [polFaq1, polFaq2, polFaq3, polFaq4]).length = 3 := by
  refine ⟨?_, ?_, ?_⟩
  · have h : faqScore polQuery polFaq4 = 10 := by decide
    rw [h]
    norm_num
  · rw [findRelevantFaqs_eval]
    decide
  · rw [findRelevantFaqs_eval]
    decide

/-- C1 (amended): for every query and corpus the scorer returns at most
3 entries, namely the first at most 3 — after the stable sort by
non-increasing score — of the entries whose score is at least the 0.3
threshold; the sorted list is non-increasing in score and each score
class keeps its original corpus order. -/
theorem claim1_take3_sorted_stable (query : Str) (faqs : List Faq) :
    (findRelevantFaqs query faqs).length ≤ 3
    ∧ ∃ l : List (Faq × Nat),
        findRelevantFaqs query faqs = (l.map Prod.fst).take 3
        ∧ l.Pairwise (fun a b => b.2 ≤ a.2)
        ∧ ∀ s : Nat, l.filter (fun z => z.2 == s)
            = ((faqs.map (fun f => (f, faqScore query f))).filter
                (fun item => decide ((3/10 : ℚ) ≤ (item.2 : ℚ)))).filter
                  (fun z => z.2 == s) := by
  constructor
  · rw [findRelevantFaqs_eval, List.length_take]
    exact inf_le_left
  · refine ⟨sortDesc ((faqs.map (fun f => (f, faqScore query f))).filter
        (fun item => decide ((3/10 : ℚ) ≤ (item.2 : ℚ)))), rfl, sortDesc_pairwise _,
        fun s => sortDesc_filter _ s⟩

/-- C2: the score of an entry decomposes as 2 points per query word
(length > 2) in the normalized title, plus 1 point per remaining query
word in the normalized content (title matches are never also counted in
content), plus the four substring components. -/
theorem claim2_score_decomposition (query : Str) (faq : Faq) :
    faqScore query faq
      = 2 * (queryWordsOf query).countP (fun w => strIncludes (normalizeText faq.title) w)
        + (queryWordsOf query).countP
            (fun w => !(strIncludes (normalizeText faq.title) w)
              && strIncludes (normalizeText faq.content) w)
        + substrScore query faq := by
  simp only [faqScore, scoreOf, substrScore]
  rw [foldl_wordScore]
  ring

/-- C6 (counterexample): for the refund corpus and query the entry
scores 4, not at least 5 — the +5 title-substring bonus cannot fire
because the title does not contain the whole query. -/
theorem claim6_counterexample :
    faqScore refundQuery refundFaq = 4 ∧ ¬ 5 ≤ faqScore refundQuery refundFaq := by
  constructor <;> decide

/-- C6 (amended): the refund entry scores exactly 4 (+2 for each of the
query words "refund" and "policy" found in the title), which meets the
0.3 threshold, and the entry is returned. -/
theorem claim6_refund_score :
    faqScore refundQuery refundFaq = 4
    ∧ (3/10 : ℚ) ≤ (faqScore refundQuery refundFaq : ℚ)
    ∧ findRelevantFaqs refundQuery [refundFaq] = [refundFaq] := by
  refine ⟨by decide, ?_, ?_⟩
  · have h : faqScore refundQuery refundFaq = 4 := by decide
    rw [h]
    norm_num
  · rw [findRelevantFaqs_eval]
    decide

/-- C7 (counterexample): the query "cat" has no normalized word of
length > 3, yet its score against the entry (title "dog",
content "cat") is 2 while the substring checks alone give 1 — the word
loop still contributes, because the code keeps words of length > 2. -/
theorem claim7_counterexample :
    ((wordsOf (normalizeText "cat".data)).all (fun w => decide (w.length ≤ 3)) = true)
    ∧ faqScore "cat".data ⟨"dog".data, "cat".data⟩
        ≠ substrScore "cat".data ⟨"dog".data, "cat".data⟩ := by
  constructor <;> decide

/-- C7 (amended): for every query whose normalized form contains no
word of length > 2, the score comes only from the substring and
raw-substring checks. -/
theorem claim7_short_words_substr_only (query : Str) (faq : Faq)
    (h : ∀ w ∈ wordsOf (normalizeText query), w.length ≤ 2) :
    faqScore query faq = substrScore query faq := by
  have hq : queryWordsOf query = [] := by
    apply List.filter_eq_nil_iff.mpr
    intro w hw
    simp only [decide_eq_true_eq]
    exact Nat.not_lt.mpr (h w hw)
  simp only [faqScore, scoreOf, substrScore, hq, List.foldl_nil, Nat.zero_add]

/-- C7 witness: the query "hi yo" has only words of length 2, and its
score against a concrete entry equals the substring-only score. -/
theorem claim7_short_words_substr_only_witness :
    (∀ w ∈ wordsOf (normalizeText "hi yo".data), w.length ≤ 2)
    ∧ faqScore "hi yo".data faqA = substrScore "hi yo".data faqA :=
  ⟨by decide, claim7_short_words_substr_only "hi yo".data faqA (by decide)⟩

/-- C10: for the empty query every entry scores 4 (the empty string is
a substring of every raw title and content, giving 3 + 1, while the
word loop and the length-guarded normalized checks contribute nothing),
so the scorer returns the first min(3, corpus length) entries in corpus
order, and in particular a non-empty result for a non-empty corpus. -/
theorem claim10_empty_query (faqs : List Faq) :
    (∀ f : Faq, faqScore [] f = 4)
    ∧ findRelevantFaqs [] faqs = faqs.take 3
    ∧ (faqs ≠ [] → findRelevantFaqs [] faqs ≠ []) := by
  have key : findRelevantFaqs [] faqs = faqs.take 3 := by
    rw [findRelevantFaqs_eval]
    rw [List.map_congr_left (fun f _ => by rw [faqScore_nil] : ∀ f ∈ faqs,
      (f, faqScore [] f) = (f, 4))]
    rw [List.filter_eq_self.mpr (fun a ha => by
      rcases List.mem_map.mp ha with ⟨f, _, rfl⟩
      rfl)]
    rw [sortDesc_const _ 4 (fun p hp => by
      rcases List.mem_map.mp hp with ⟨f, _, rfl⟩
      rfl)]
    rw [List.map_map, show (Prod.fst ∘ fun f : Faq => (f, (4 : Nat))) = id from rfl,
      List.map_id]
  refine ⟨faqScore_nil, key, ?_⟩
  intro hne
  rw [key]
  cases faqs with
  | nil => exact absurd rfl hne
  | cons a l => simp

/-- C10 witness: a concrete one-entry corpus yields a non-empty result
for the empty query. -/
theorem claim10_empty_query_witness :
    (([faqA] : List Faq) ≠ []) ∧ findRelevantFaqs [] [faqA] ≠ [] :=
  ⟨by decide, (claim10_empty_query [faqA]).2.2 (by decide)⟩

/-! ## Claims about history trimming and prompt assembly -/

/-- C3: on a stored history of user/assistant turns, the route keeps
the last 6 turns when the most recent turn is from the user and the
last 5 otherwise (also when the history is empty). -/
theorem claim3_history_trimming (h : List Msg)
    (hs : ∀ m ∈ h, m.sender = Sender.user ∨ m.sender = Sender.ai) :
    (∀ m, h.getLast? = some m → m.sender = Sender.user → trimHistory h = lastN 6 h)
    ∧ (∀ m, h.getLast? = some m → m.sender ≠ Sender.user → trimHistory h = lastN 5 h)
    ∧ (h = [] → trimHistory h = []) := by
  have hfil : h.filter keptSender = h := by
    apply List.filter_eq_self.mpr
    intro m hm
    rcases hs m hm with h1 | h1 <;> simp [keptSender, h1]
  refine ⟨?_, ?_, ?_⟩
  · intro m hm hu
    simp only [trimHistory, hfil, hm]
    simp [hu]
  · intro m hm hnu
    simp only [trimHistory, hfil, hm]
    simp [hnu]
  · intro he
    subst he
    rfl

/-- C3 witness: seven alternating turns ending in a user turn keep
exactly the last 6; six turns ending in an assistant turn keep exactly
the last 5. -/
theorem claim3_history_trimming_witness :
    trimHistory alt7 = lastN 6 alt7 ∧ trimHistory alt6 = lastN 5 alt6 :=
  ⟨(claim3_history_trimming alt7 (by decide)).1 ⟨Sender.user, "m4".data⟩ (by decide) rfl,
   (claim3_history_trimming alt6 (by decide)).2.1 ⟨Sender.ai, "r3".data⟩ (by decide) (by decide)⟩

/-- A formatted FAQ entry always starts with "Q: ". -/
theorem fmtFaq_ne_nil (f : Faq) : fmtFaq f ≠ [] := by
  intro h
  unfold fmtFaq at h
  rw [List.append_eq_nil, List.append_eq_nil, List.append_eq_nil] at h
  exact absurd h.1.1.1 (by decide)

/-- The FAQ block of a non-empty match list is a non-empty string. -/
theorem faqContext_cons_ne (f : Faq) (rest : List Faq) : faqContext (f :: rest) ≠ [] := by
  have hpos : (f :: rest).length > 0 := Nat.succ_pos _
  simp only [faqContext, if_pos hpos]
  cases rest with
  | nil =>
    simp only [List.map_cons, List.map_nil, List.intercalate, List.intersperse, List.flatten,
      List.append_nil]
    exact fmtFaq_ne_nil f
  | cons g gs =>
    simp only [List.map_cons, List.intercalate, List.intersperse, List.flatten]
    intro h
    rw [List.append_eq_nil] at h
    exact fmtFaq_ne_nil f h.1

/-- C4: the outbound `contents` list is exactly the instruction block
as a first user-role message, then the trimmed history in order with
sender user mapped to role user and the assistant (ai) sender to role
model, then the current query as the final user-role message; when no
FAQ matched the instruction is the bare prefix, and otherwise it
carries the "Q:/A:" block joined by the `---` separator. -/
theorem claim4_payload_order (q : Str) (relevant : List Faq) (hist : List Msg) :
    payloadContents q relevant hist
      = { role := Role.user, parts := [systemInstruction relevant] }
        :: (hist.map toGeminiMsg ++ [{ role := Role.user, parts := [q] }])
    ∧ (∀ m ∈ hist, (m.sender = Sender.user → (toGeminiMsg m).role = Role.user)
        ∧ (m.sender = Sender.ai → (toGeminiMsg m).role = Role.model))
    ∧ (relevant = [] → systemInstruction relevant = instrPrefix)
    ∧ (relevant ≠ [] → systemInstruction relevant
        = instrPrefix ++ faqHeader
          ++ List.intercalate faqSep (relevant.map fmtFaq) ++ "\n\n".data) := by
  refine ⟨rfl, ?_, ?_, ?_⟩
  · intro m _
    constructor
    · intro hu
      simp [toGeminiMsg, hu]
    · intro ha
      simp [toGeminiMsg, ha]
  · intro he
    subst he
    simp [systemInstruction, faqContext]
  · intro hne
    obtain ⟨f, rest, rfl⟩ := List.exists_cons_of_ne_nil hne
    have hctx := faqContext_cons_ne f rest
    have hval : faqContext (f :: rest)
        = List.intercalate faqSep ((f :: rest).map fmtFaq) := by
      simp [faqContext]
    have hb : (List.intercalate faqSep ((f :: rest).map fmtFaq)).isEmpty = false := by
      rw [← hval]
      cases hh : faqContext (f :: rest) with
      | nil => exact absurd hh hctx
      | cons a t => rfl
    simp only [systemInstruction, hval, hb, Bool.not_false, if_true, List.append_assoc]

/-- C4 witness: for a concrete matched FAQ the instruction carries the
block, and a concrete user turn maps to role user. -/
theorem claim4_payload_order_witness :
    systemInstruction [faqT]
      = instrPrefix ++ faqHeader ++ List.intercalate faqSep ([faqT].map fmtFaq) ++ "\n\n".data
    ∧ (toGeminiMsg ⟨Sender.user, "hi".data⟩).role = Role.user :=
  ⟨(claim4_payload_order "q".data [faqT] histU).2.2.2 (by decide),
   ((claim4_payload_order "q".data [faqT] histU).2.1 ⟨Sender.user, "hi".data⟩ (by decide)).1 rfl⟩

/-! ## Claims about persistence and upload -/

/-- C8: a successful exchange appends exactly the user turn (with the
incoming message) and then the ai turn (with the returned reply) to the
stored record, leaving all previously stored turns unchanged; on the
first message the record starts from the empty turn list. -/
theorem claim8_append_exchange (prev : List Msg) (message reply : Str) :
    savedMessages (some prev) message reply
      = prev ++ [⟨Sender.user, message⟩, ⟨Sender.ai, reply⟩]
    ∧ savedMessages none message reply = [⟨Sender.user, message⟩, ⟨Sender.ai, reply⟩]
    ∧ (savedMessages (some prev) message reply).take prev.length = prev
    ∧ (savedMessages (some prev) message reply).length = prev.length + 2 := by
  refine ⟨rfl, rfl, ?_, by simp [savedMessages]⟩
  exact List.take_left prev _

/-- C9: a file whose mimetype starts with "text/" round-trips: the
stored FAQ content is exactly the uploaded buffer (its bytes decoded as
UTF-8, which the character-level model renders as the identity). -/
theorem claim9_text_roundtrip (pdfParse : Str → Except Str Str) (title : Str)
    (f : UploadedFile) (h : prefixed "text/".data f.mimetype = true) :
    fileFaq pdfParse title f = { title := title, content := f.buffer }
    ∧ extractedContent pdfParse f = f.buffer := by
  have hne : (f.mimetype == "application/pdf".data) = false := by
    cases hb : f.mimetype == "application/pdf".data with
    | false => rfl
    | true =>
      have hEq : f.mimetype = "application/pdf".data := eq_of_beq hb
      rw [hEq] at h
      exact absurd h (by decide)
  constructor
  · simp [fileFaq, extractedContent, hne, h]
  · simp [extractedContent, hne, h]

/-- C9 witness: uploading a text/plain file containing "Hello world"
yields a FAQ whose content is exactly "Hello world". -/
theorem claim9_text_roundtrip_witness :
    prefixed "text/".data helloFile.mimetype = true
    ∧ (fileFaq noPdf "Greeting".data helloFile).content = "Hello world".data :=
  ⟨by decide, (claim9_text_roundtrip noPdf "Greeting".data helloFile (by decide)).2⟩

/-! ## Claims about reply extraction -/

/-- C5 (counterexample): extraction is not total over arbitrary
response objects.  For `{"candidates": {"length": 1}}` every guard
passes but `candidates[0]` is `undefined` and `.content` throws; and
for a well-shaped response whose first part has no `text` field,
extraction returns `undefined` (`Except.ok none`), which is not the
fallback string and not a string at all. -/
theorem claim5_counterexample :
    extractReply malformedA = Except.error ()
    ∧ extractReply malformedB = Except.ok none
    ∧ extractReply malformedB ≠ Except.ok (some (JVal.str fallbackReply)) := by
  refine ⟨rfl, rfl, ?_⟩
  intro h
  have h2 : (Except.ok none : Except Unit (Option JVal))
      = Except.ok (some (JVal.str fallbackReply)) := h
  simp at h2

/-- The safe-navigation null test agrees with the value-level one on
defined values. -/
theorem isNully_some (v : JVal) : isNully (some v) = isNullV v := by
  cases v <;> rfl

/-- C5 (amended): extraction never consults the dead initial default,
and behaves exactly as the guard-chain contract `extractSpec`: it
returns the fixed fallback string, without raising, whenever any guard
of the chain is falsy — in particular whenever `data.candidates` is
absent; when the whole guarded chain passes it returns the raw `text`
field of the first candidate's first part (the first textual completion
when that field is a string, `undefined` when it is missing); and it
throws a caught `TypeError` exactly when the indexed candidate or part
about to be dereferenced is `undefined` or `null`. -/
theorem claim5_extraction_cases (dat : Option JVal) :
    extractReply dat = extractSpec dat
    ∧ (sget dat "candidates".data = none
        → extractReply dat = Except.ok (some (JVal.str fallbackReply))) := by
  have heq : extractReply dat = extractSpec dat := by
    cases dat with
    | none => simp [extractReply, extractSpec, truthyO]
    | some v =>
      cases htv : truthy v with
      | false => simp [extractReply, extractSpec, truthyO, htv]
      | true =>
        cases hcv : pget v "candidates".data with
        | none =>
          simp [extractReply, extractSpec, truthyO, sget, Option.bind, htv, hcv]
        | some cv =>
          cases htc : truthy cv with
          | false =>
            simp [extractReply, extractSpec, truthyO, sget, Option.bind, htv, hcv, htc]
          | true =>
            cases hg1 : gtZero (pget cv "length".data) with
            | false =>
              simp [extractReply, extractSpec, truthyO, sget, Option.bind, htv, hcv, htc, hg1]
            | true =>
              cases hi1 : pidx cv 0 with
              | none =>
                simp [extractReply, extractSpec, truthyO, isNully, sget, sidx, Option.bind,
                  htv, hcv, htc, hg1, hi1]
              | some c0 =>
                cases hn1 : isNullV c0 with
                | true =>
                  simp [extractReply, extractSpec, truthyO, isNully_some, sget, sidx,
                    Option.bind, htv, hcv, htc, hg1, hi1, hn1]
                | false =>
                  cases hct : pget c0 "content".data with
                  | none =>
                    simp [extractReply, extractSpec, truthyO, isNully_some, sget, sidx,
                      Option.bind, htv, hcv, htc, hg1, hi1, hn1, hct]
                  | some ct =>
                    cases htct : truthy ct with
                    | false =>
                      simp [extractReply, extractSpec, truthyO, isNully_some, sget, sidx,
                        Option.bind, htv, hcv, htc, hg1, hi1, hn1, hct, htct]
                    | true =>
                      cases hps : pget ct "parts".data with
                      | none =>
                        simp [extractReply, extractSpec, truthyO, isNully_some, sget, sidx,
                          Option.bind, htv, hcv, htc, hg1, hi1, hn1, hct, htct, hps]
                      | some ps =>
                        cases htps : truthy ps with
                        | false =>
                          simp [extractReply, extractSpec, truthyO, isNully_some, sget, sidx,
                            Option.bind, htv, hcv, htc, hg1, hi1, hn1, hct, htct, hps, htps]
                        | true =>
                          cases hg2 : gtZero (pget ps "length".data) with
                          | false =>
                            simp [extractReply, extractSpec, truthyO, isNully_some, sget,
                              sidx, Option.bind, htv, hcv, htc, hg1, hi1, hn1, hct, htct,
                              hps, htps, hg2]
                          | true =>
                            cases hi2 : pidx ps 0 with
                            | none =>
                              simp [extractReply, extractSpec, truthyO, isNully, isNully_some,
                                firstPart, sget, sidx, Option.bind, htv, hcv, htc, hg1, hi1,
                                hn1, hct, htct, hps, htps, hg2, hi2]
                            | some p0 =>
                              cases hn2 : isNullV p0 with
                              | true =>
                                simp [extractReply, extractSpec, truthyO, isNully_some,
                                  firstPart, sget, sidx, Option.bind, htv, hcv, htc, hg1,
                                  hi1, hn1, hct, htct, hps, htps, hg2, hi2, hn2]
                              | false =>
                                simp [extractReply, extractSpec, truthyO, isNully_some,
                                  firstPart, sget, sidx, Option.bind, htv, hcv, htc, hg1,
                                  hi1, hn1, hct, htct, hps, htps, hg2, hi2, hn2]
  refine ⟨heq, ?_⟩
  intro hc
  rw [heq]
  cases dat with
  | none => simp [extractSpec, truthyO]
  | some v =>
    cases htv : truthy v with
    | false => simp [extractSpec, truthyO, htv]
    | true => simp [extractSpec, truthyO, htv, hc]

/-- C5 witness: the empty response object lacks `candidates`, and
extraction returns the fixed fallback string. -/
theorem claim5_extraction_cases_witness :
    sget (some (JVal.obj [])) "candidates".data = none
    ∧ extractReply (some (JVal.obj [])) = Except.ok (some (JVal.str fallbackReply)) :=
  ⟨rfl, (claim5_extraction_cases (some (JVal.obj []))).2 rfl⟩
